import Mathlib

/-!
Verification development for the Blocksight wallet-data backend.

This file gives a shallow embedding of the core wallet pipeline:
the address resolver (resolve_address together with the eth_utils
helpers it calls), the paginated transfer stream (stream_transfers),
the NFT stream (stream_nfts), the SSE event generators of the wallet
routes, and the derived-statistics engine. Upstream network calls are
modelled as deterministic fetch functions; the keccak hash used by
the EIP-55 checksum is modelled as an arbitrary nibble function, so
every theorem below holds for the real hash as a special case.
-/

namespace Blocksight

/-- ASCII lowercasing of a single character, as used by Python
str.lower on hex address text. -/
def lowerChar (c : Char) : Char :=
  if 'A' ≤ c ∧ c ≤ 'Z' then Char.ofNat (c.toNat + 32) else c

/-- ASCII uppercasing of a single character, as used by Python
str.upper on hex address text. -/
def upperChar (c : Char) : Char :=
  if 'a' ≤ c ∧ c ≤ 'z' then Char.ofNat (c.toNat - 32) else c

/-- Hex digit test for the 22 characters of hexadecimal text. -/
def isHexDigit (c : Char) : Bool :=
  c == '0' || c == '1' || c == '2' || c == '3' || c == '4' ||
  c == '5' || c == '6' || c == '7' || c == '8' || c == '9' ||
  c == 'a' || c == 'b' || c == 'c' || c == 'd' || c == 'e' || c == 'f' ||
  c == 'A' || c == 'B' || c == 'C' || c == 'D' || c == 'E' || c == 'F'

/-- eth_utils is_hex_address: a 0x-prefixed string of 40 hex digits. -/
def isHexAddress (s : String) : Bool :=
  s.data.length == 42 && s.data.take 2 == ['0', 'x'] &&
  (s.data.drop 2).all isHexDigit

/-- Apply the EIP-55 case mask to a character list: the character at
offset i is uppercased when the hash nibble at i exceeds 7, lowercased
otherwise. The nibble function receives the normalized (lowercased)
body, as eth_utils hashes the lowercase hex text. -/
def applyMask (nib : List Char → Nat → Nat) (norm : List Char) :
    Nat → List Char → List Char
  | _, [] => []
  | i, c :: rest =>
    (if 7 < nib norm i then upperChar c else lowerChar c) ::
      applyMask nib norm (i + 1) rest

/-- eth_utils to_checksum_address on a 0x-prefixed address: lowercase
the 40-character body, hash it, and re-case each character by the
corresponding hash nibble. The keccak hash enters as the abstract
nibble function nib. -/
def to_checksum_address (nib : List Char → Nat → Nat) (s : String) : String :=
  let norm := (s.data.drop 2).map lowerChar
  String.mk ('0' :: 'x' :: applyMask nib norm 0 norm)

/-- eth_utils is_checksum_formatted_address: a hex address whose body
is neither all-lowercase nor all-uppercase. -/
def is_checksum_formatted_address (s : String) : Bool :=
  isHexAddress s &&
  (let body := s.data.drop 2
   !(body == body.map lowerChar) && !(body == body.map upperChar))

/-- eth_utils is_checksum_address: a hex address equal to its own
checksummed form. -/
def is_checksum_address (nib : List Char → Nat → Nat) (s : String) : Bool :=
  isHexAddress s && (s == to_checksum_address nib s)

/-- eth_utils is_address: hex-address format, and when the body is
mixed-case the EIP-55 checksum must validate. -/
def is_address (nib : List Char → Nat → Nat) (s : String) : Bool :=
  if !isHexAddress s then false
  else if is_checksum_formatted_address s then is_checksum_address nib s
  else true

/-- WalletService.resolve_address: if the input is already a valid
address, return its checksummed form; otherwise try ENS resolution
(the name service is the function ens, returning none on failure or
exception); a truthy resolved value is checksummed, anything else
raises ValueError, modelled as Except.error. -/
def resolve_address (nib : List Char → Nat → Nat)
    (ens : String → Option String) (input_str : String) :
    Except String String :=
  if is_address nib input_str then
    Except.ok (to_checksum_address nib input_str)
  else
    match ens input_str with
    | some resolved =>
      if resolved ≠ "" then Except.ok (to_checksum_address nib resolved)
      else Except.error ("Invalid address or ENS name: " ++ input_str)
    | none => Except.error ("Invalid address or ENS name: " ++ input_str)

/-- Python truthiness of an optional page cursor: None and the empty
string are falsy, any other string is truthy. -/
def truthy : Option String → Bool
  | none => false
  | some s => !(s == "")

/-- The shape returned by alchemy_getAssetTransfers, as consumed by
stream_transfers: response.get("transfers", []) and
response.get("pageKey"). Transfer records are opaque to the stream,
hence the type parameter. -/
structure TransfersResponse (τ : Type) where
  transfers : List τ
  pageKey : Option String
deriving DecidableEq

/-- The parameter dictionary built by _get_asset_transfers for one
upstream call. -/
structure TransferQuery where
  fromBlock : String
  toBlock : String
  fromAddress : Option String
  toAddress : Option String
  category : List String
  withMetadata : Bool
  pageKey : Option String
  maxCount : Nat
deriving DecidableEq

/-- One batch yielded by stream_transfers. -/
structure Batch (τ : Type) where
  type : String
  page : Nat
  count : Nat
  total : Nat
  direction : String
  data : List τ
deriving DecidableEq

/-- The category list built at the top of stream_transfers: always
external, internal and erc20; the NFT categories only when requested. -/
def transferCategories (include_nft : Bool) : List String :=
  ["external", "internal", "erc20"] ++
    (if include_nft then ["erc721", "erc1155"] else [])

/-- One direction loop of stream_transfers, with fuel making the
Python while-True loop a total function. The arguments after the
fuel are the loop state: current page cursor, pages fetched so far,
and running total for this direction. Returns the yielded batches
and whether the loop terminated (false means the fuel ran out while
the Python loop would still be running). Per iteration: stop when a
positive cap is already reached; fetch the page for the current
cursor; truncate it to the remaining cap when a cap is set; yield a
batch only when the (truncated) page is non-empty; stop after the
yield when the new cursor is falsy or the page was empty. -/
def transferLoop {τ : Type} (fetch : Option String → TransfersResponse τ)
    (max_transfers : Nat) (ty lbl : String) :
    Nat → Option String → Nat → Nat → List (Batch τ) × Bool
  | 0, _, _, _ => ([], false)
  | fuel + 1, page_key, page, total =>
    if max_transfers > 0 ∧ max_transfers ≤ total then ([], true)
    else
      let response := fetch page_key
      let transfers :=
        if max_transfers > 0 then response.transfers.take (max_transfers - total)
        else response.transfers
      if transfers.isEmpty then ([], true)
      else
        let b : Batch τ :=
          ⟨ty, page + 1, transfers.length, total + transfers.length, lbl, transfers⟩
        if truthy response.pageKey then
          let r := transferLoop fetch max_transfers ty lbl fuel
            response.pageKey (page + 1) (total + transfers.length)
          (b :: r.1, r.2)
        else ([b], true)

/-- WalletService.stream_transfers: build the category list; run the
from-direction loop when direction is from or both, each call fetching
via _get_asset_transfers with the address bound as sender, a fresh
cursor, page counter and running total; then, if that loop finished,
run the to-direction loop the same way with the address bound as
receiver and fresh state. The upstream is the deterministic function
fetch from query parameters to responses. -/
def stream_transfers {τ : Type} (fetch : TransferQuery → TransfersResponse τ)
    (address from_block : String) (max_transfers : Nat) (include_nft : Bool)
    (direction : String) (fuel : Nat) : List (Batch τ) × Bool :=
  let categories := transferCategories include_nft
  let fromRun :=
    if direction = "from" ∨ direction = "both" then
      transferLoop
        (fun pk => fetch ⟨from_block, "latest", some address, none, categories, true, pk, 1000⟩)
        max_transfers "from_transfers" "from" fuel none 0 0
    else ([], true)
  if fromRun.2 then
    let toRun :=
      if direction = "to" ∨ direction = "both" then
        transferLoop
          (fun pk => fetch ⟨from_block, "latest", none, some address, categories, true, pk, 1000⟩)
          max_transfers "to_transfers" "to" fuel none 0 0
      else ([], true)
    (fromRun.1 ++ toRun.1, toRun.2)
  else (fromRun.1, false)

/-- The query parameters of one getNFTsForOwner call made by
stream_nfts. -/
structure NftQuery where
  owner : String
  pageSize : Nat
  pageKey : Option String
deriving DecidableEq

/-- The shape of one getNFTsForOwner response, as consumed by
stream_nfts: data.get("ownedNfts", []), data.get("totalCount", 0)
and data.get("pageKey"). -/
structure NftResponse (ν : Type) where
  ownedNfts : List ν
  totalCount : Nat
  pageKey : Option String
deriving DecidableEq

/-- One batch yielded by stream_nfts: page number, items in the page,
running total fetched so far, and the provider-reported collection
size. -/
structure NftBatch (ν : Type) where
  page : Nat
  count : Nat
  total : Nat
  totalCount : Nat
  data : List ν
deriving DecidableEq

/-- The while-True loop of stream_nfts, with fuel. Per iteration:
fetch the page for the current cursor, always yield a batch (even for
an empty page), then stop when the new cursor is falsy or the page
was empty. -/
def nftLoop {ν : Type} (fetch : Option String → NftResponse ν) :
    Nat → Option String → Nat → Nat → List (NftBatch ν) × Bool
  | 0, _, _, _ => ([], false)
  | fuel + 1, page_key, page, total =>
    let response := fetch page_key
    let nfts := response.ownedNfts
    let b : NftBatch ν :=
      ⟨page + 1, nfts.length, total + nfts.length, response.totalCount, nfts⟩
    if truthy response.pageKey ∧ ¬nfts.isEmpty then
      let r := nftLoop fetch fuel response.pageKey (page + 1) (total + nfts.length)
      (b :: r.1, r.2)
    else ([b], true)

/-- WalletService.stream_nfts: run the NFT loop from a fresh cursor,
page counter and running total, each call passing the owner address
and page size to the upstream. -/
def stream_nfts {ν : Type} (fetch : NftQuery → NftResponse ν)
    (address : String) (page_size : Nat) (fuel : Nat) :
    List (NftBatch ν) × Bool :=
  nftLoop (fun pk => fetch ⟨address, page_size, pk⟩) fuel none 0 0

/-- The observable behaviour of iterating one underlying async
generator: a finite trace of yielded batches ending either in normal
completion or in a raised exception carrying a message. -/
inductive GenTrace (β : Type) where
  | yield (b : β) (rest : GenTrace β)
  | stop
  | fail (msg : String)
deriving DecidableEq

/-- One server-sent event as emitted by the wallet route event
generators: a data event wrapping one batch, or a terminal complete
or error event carrying a message. -/
inductive SseEvent (β : Type) where
  | data (b : β)
  | complete (message : String)
  | error (message : String)
deriving DecidableEq

/-- The event_generator of stream_wallet_transfers and
stream_wallet_nfts: iterate the wrapped batch sequence inside a try
block, emitting one data event per batch; on normal exhaustion emit
one terminal complete event; a raised exception is caught and turned
into one terminal error event with the exception message. -/
def event_generator {β : Type} (completeMsg : String) :
    GenTrace β → List (SseEvent β)
  | GenTrace.yield b rest => SseEvent.data b :: event_generator completeMsg rest
  | GenTrace.stop => [SseEvent.complete completeMsg]
  | GenTrace.fail m => [SseEvent.error m]

/-- The batches successfully yielded by a generator trace before it
ends. -/
def traceYields {β : Type} : GenTrace β → List β
  | GenTrace.yield b rest => b :: traceYields rest
  | GenTrace.stop => []
  | GenTrace.fail _ => []

/-- The failure outcome of a generator trace: the exception message
when iteration raised, none when it completed normally. -/
def traceError {β : Type} : GenTrace β → Option String
  | GenTrace.yield _ rest => traceError rest
  | GenTrace.stop => none
  | GenTrace.fail m => some m

/-- One transfer record, with the fields read by the derived
statistics engine. Absent dictionary keys are modelled as none. -/
structure Transfer where
  hash : Option String
  fromAddress : Option String
  toAddress : Option String
  category : String
  value : Option String
  contractAddress : Option String
deriving DecidableEq

/-- Parse a non-negative decimal integer string of base units;
returns none on the empty string or any non-digit character.
Used to model the parse step of the derived statistics engine,
whose failure is the skip condition of the resilience policy. -/
def parseDecimal (s : String) : Option Nat :=
  if s ≠ "" ∧ s.data.all Char.isDigit then
    some (s.data.foldl (fun acc c => acc * 10 + (c.toNat - 48)) 0)
  else none

/-- Native-currency transfers carry the category "external" in the
upstream category taxonomy. -/
def isNativeTransfer (t : Transfer) : Bool :=
  t.category == "external"

/-- Lowercase a string, for the case-insensitive address comparison
of the derived statistics engine. -/
def lowerStr (s : String) : String :=
  String.mk (s.data.map lowerChar)

/-- The parsed value of a native transfer, none when the value field
is absent or not a valid decimal number. -/
def transferValue (t : Transfer) : Option Nat :=
  t.value.bind parseDecimal

/-- Modelled from the spec: the contribution of one transfer to
total-in — for native-currency transfers whose receiver equals the
given address (case-insensitively) and whose value parses, the
parsed value; otherwise zero, a transfer with an unparseable value
being skipped silently. The implementation
WalletService.get_derived_stats is called by the wallet routes but
is not present under src/. -/
def contribIn (address : String) (t : Transfer) : Nat :=
  if isNativeTransfer t then
    match transferValue t with
    | some v =>
      if (t.toAddress.map lowerStr) = some (lowerStr address) then v else 0
    | none => 0
  else 0

/-- Modelled from the spec: the contribution of one transfer to
total-out — as contribIn, with the sender compared to the given
address. -/
def contribOut (address : String) (t : Transfer) : Nat :=
  if isNativeTransfer t then
    match transferValue t with
    | some v =>
      if (t.fromAddress.map lowerStr) = some (lowerStr address) then v else 0
    | none => 0
  else 0

/-- The derived-statistics aggregate: totals of native value in and
out in base units, the net flow, the distinct contract addresses of
non-native transfers, the distinct transaction hashes, and the raw
transfer count. Human-scaled string renderings are transport
formatting and are not modelled. -/
structure DerivedStats where
  totalEthInWei : Nat
  totalEthOutWei : Nat
  netEthWei : Int
  tokenContracts : List String
  uniqueTransactions : Nat
  totalTransfers : Nat
deriving DecidableEq

/-- Modelled from the spec: WalletService.get_derived_stats, absent
from src/ (only its callers in wallet_routes are present). Given an
address and any sequence of transfer records: sum the parseable
native values by receiver and sender into total-in and total-out,
net being their difference; collect the distinct contract addresses
referenced by non-native transfers and the distinct transaction
hashes present; report the length of the input as the total transfer
count, not deduplicated. -/
def get_derived_stats (address : String) (transfers : List Transfer) :
    DerivedStats :=
  let totalIn := (transfers.map (contribIn address)).sum
  let totalOut := (transfers.map (contribOut address)).sum
  { totalEthInWei := totalIn
    totalEthOutWei := totalOut
    netEthWei := (totalIn : Int) - (totalOut : Int)
    tokenContracts :=
      ((transfers.filter (fun t => !isNativeTransfer t)).filterMap
        (fun t => t.contractAddress)).dedup
    uniqueTransactions := (transfers.filterMap (fun t => t.hash)).dedup.length
    totalTransfers := transfers.length }

/-- Witness transfer for the derived-statistics claims: a native
transfer whose value is not a decimal number. -/
def unparseableTransfer : Transfer :=
  ⟨some "0xhash", some "0xa", some "0xb", "external", some "not-a-number", none⟩

/-- Witness NFT upstream: no NFTs owned. -/
def nftFetchEmpty : NftQuery → NftResponse Unit := fun _ => ⟨[], 7, none⟩

/-- Witness transfer upstream: an empty first page. -/
def transferFetchEmpty : Option String → TransfersResponse Unit :=
  fun _ => ⟨[], none⟩

/-- The EIP-55 relevant character class: lowercase hex characters,
the fixed points of lowerChar among hex digits. -/
def lowHex (c : Char) : Prop := isHexDigit c = true ∧ lowerChar c = c

/-- The sum of the count fields of a batch list. -/
def sumCounts {τ : Type} (bs : List (Batch τ)) : Nat :=
  (bs.map (fun b => b.count)).sum

/-- The per-direction batch invariants of stream_transfers, read off a
batch list positionally starting from a given prior page counter and
running total: each batch has count equal to its data length and at
least 1, page numbers increment by exactly one, and each total is the
previous total plus the count of the batch itself. -/
def chainInv {τ : Type} : Nat → Nat → List (Batch τ) → Prop
  | _, _, [] => True
  | page, total, b :: rest =>
    b.count = b.data.length ∧ 1 ≤ b.count ∧ b.page = page + 1 ∧
    b.total = total + b.count ∧ chainInv (page + 1) (total + b.count) rest

/-- Proof-side view of the body of stream_transfers: the from-run
result F and to-run result T combine to the final output, the to-run
entering only when the from-run finished. -/
def streamCombine {τ : Type} (F T : List (Batch τ) × Bool) : List (Batch τ) × Bool :=
  if F.2 then (F.1 ++ T.1, T.2) else (F.1, false)

/-- The cursor passed to the n-th upstream call of one direction loop,
following the pageKey chain from a starting cursor. -/
def cursorChain {τ : Type} (fetch : Option String → TransfersResponse τ) :
    Option String → Nat → Option String
  | pk, 0 => pk
  | pk, n + 1 => cursorChain fetch (fetch pk).pageKey n

/-- The upstream eventually ends one direction loop at its n-th call:
that call returns an empty page or no truthy continuation cursor. -/
def terminalAt {τ : Type} (fetch : Option String → TransfersResponse τ)
    (pk : Option String) (n : Nat) : Prop :=
  (fetch (cursorChain fetch pk n)).transfers = [] ∨
    truthy (fetch (cursorChain fetch pk n)).pageKey = false

/-- Witness keccak nibble function: constantly zero. -/
def nibZero : List Char → Nat → Nat := fun _ _ => 0

/-- Witness name service that resolves nothing. -/
def ensNone : String → Option String := fun _ => none

/-- Witness canonical address: the zero address. -/
def canonicalAddr : String := "0x0000000000000000000000000000000000000000"

/-- Witness upstream for the ordering claim: nothing sent, two pages
received. -/
def transferFetchToPages : TransferQuery → TransfersResponse Nat := fun q =>
  match q.toAddress, q.pageKey with
  | some _, none => ⟨[5], some "k"⟩
  | some _, some _ => ⟨[6], none⟩
  | none, _ => ⟨[], none⟩

/-- Witness upstream for the cap claim: endless pages of three
transfers. -/
def transferFetchBig : TransferQuery → TransfersResponse Nat :=
  fun _ => ⟨[1, 2, 3], some "k"⟩

/-- Witness upstream for the decomposition claim: one final page per
direction. -/
def transferFetchOnePage : TransferQuery → TransfersResponse Nat := fun q =>
  match q.pageKey with
  | none => ⟨[1], none⟩
  | some _ => ⟨[], none⟩

/-- Witness upstream for the final-page claim: one non-empty page with
no continuation cursor. -/
def transferFetchFinal : Option String → TransfersResponse Nat :=
  fun _ => ⟨[1, 2], none⟩

/-- Witness NFT upstream for the three-page scenario: pages of 100,
100 and 50 items out of a reported collection of 250. -/
def nftFetch3 : NftQuery → NftResponse Unit := fun q =>
  match q.pageKey with
  | none => ⟨List.replicate 100 (), 250, some "k1"⟩
  | some "k1" => ⟨List.replicate 100 (), 250, some "k2"⟩
  | _ => ⟨List.replicate 50 (), 250, none⟩

lemma hex_cases (c : Char) (h : isHexDigit c = true) :
    c = '0' ∨ c = '1' ∨ c = '2' ∨ c = '3' ∨ c = '4' ∨ c = '5' ∨ c = '6' ∨
    c = '7' ∨ c = '8' ∨ c = '9' ∨ c = 'a' ∨ c = 'b' ∨ c = 'c' ∨ c = 'd' ∨
    c = 'e' ∨ c = 'f' ∨ c = 'A' ∨ c = 'B' ∨ c = 'C' ∨ c = 'D' ∨ c = 'E' ∨
    c = 'F' := by
  simp only [isHexDigit, Bool.or_eq_true, beq_iff_eq] at h
  tauto

lemma lowerChar_hex_lowHex (c : Char) (h : isHexDigit c = true) :
    lowHex (lowerChar c) := by
  rcases hex_cases c h with rfl | rfl | rfl | rfl | rfl | rfl | rfl | rfl |
    rfl | rfl | rfl | rfl | rfl | rfl | rfl | rfl | rfl | rfl | rfl | rfl |
    rfl | rfl <;> exact ⟨by decide, by decide⟩

lemma lowHex_facts (c : Char) (h : lowHex c) :
    lowerChar (upperChar c) = c ∧ lowerChar c = c ∧
    isHexDigit (upperChar c) = true ∧ isHexDigit c = true := by
  obtain ⟨hhex, hlow⟩ := h
  rcases hex_cases c hhex with rfl | rfl | rfl | rfl | rfl | rfl | rfl | rfl |
    rfl | rfl | rfl | rfl | rfl | rfl | rfl | rfl | rfl | rfl | rfl | rfl |
    rfl | rfl
  all_goals first
    | exact absurd hlow (by decide)
    | exact ⟨by decide, by decide, by decide, by decide⟩


lemma applyMask_map_lowerChar (nib : List Char → Nat → Nat) (norm : List Char) :
    ∀ (l : List Char) (i : Nat), (∀ c ∈ l, lowHex c) →
      (applyMask nib norm i l).map lowerChar = l := by
  intro l
  induction l with
  | nil => intro i _; simp [applyMask]
  | cons c rest ih =>
    intro i hl
    have hc := hl c (List.mem_cons_self c rest)
    have hr : ∀ x ∈ rest, lowHex x := fun x hx => hl x (List.mem_cons_of_mem c hx)
    obtain ⟨h1, h2, h3, h4⟩ := lowHex_facts c hc
    simp only [applyMask, List.map_cons]
    split
    · rw [h1, ih (i + 1) hr]
    · simp only [h2, ih (i + 1) hr]

lemma applyMask_length (nib : List Char → Nat → Nat) (norm : List Char) :
    ∀ (l : List Char) (i : Nat), (applyMask nib norm i l).length = l.length := by
  intro l
  induction l with
  | nil => intro i; simp [applyMask]
  | cons c rest ih => intro i; simp [applyMask, ih (i + 1)]

lemma applyMask_all_hex (nib : List Char → Nat → Nat) (norm : List Char) :
    ∀ (l : List Char) (i : Nat), (∀ c ∈ l, lowHex c) →
      (applyMask nib norm i l).all isHexDigit = true := by
  intro l
  induction l with
  | nil => intro i _; simp [applyMask]
  | cons c rest ih =>
    intro i hl
    have hc := hl c (List.mem_cons_self c rest)
    have hr : ∀ x ∈ rest, lowHex x := fun x hx => hl x (List.mem_cons_of_mem c hx)
    obtain ⟨h1, h2, h3, h4⟩ := lowHex_facts c hc
    simp only [applyMask, List.all_cons, Bool.and_eq_true]
    refine ⟨?_, ih (i + 1) hr⟩
    split
    · exact h3
    · rw [h2]; exact h4

lemma norm_lowHex (body : List Char) (hb : body.all isHexDigit = true) :
    ∀ c ∈ body.map lowerChar, lowHex c := by
  intro c hc
  rw [List.mem_map] at hc
  obtain ⟨b, hb2, rfl⟩ := hc
  rw [List.all_eq_true] at hb
  exact lowerChar_hex_lowHex b (hb b hb2)

lemma isHexAddress_elim (s : String) (h : isHexAddress s = true) :
    s.data.length = 42 ∧ s.data.take 2 = ['0', 'x'] ∧
      (s.data.drop 2).all isHexDigit = true := by
  simp only [isHexAddress, Bool.and_eq_true, beq_iff_eq] at h
  exact ⟨h.1.1, h.1.2, h.2⟩

lemma checksum_idem (nib : List Char → Nat → Nat) (s : String)
    (h : isHexAddress s = true) :
    to_checksum_address nib (to_checksum_address nib s) =
      to_checksum_address nib s := by
  obtain ⟨hlen, htake, hall⟩ := isHexAddress_elim s h
  have hlh := norm_lowHex _ hall
  have hnorm2 : ((to_checksum_address nib s).data.drop 2).map lowerChar =
      (s.data.drop 2).map lowerChar :=
    applyMask_map_lowerChar nib ((s.data.drop 2).map lowerChar)
      ((s.data.drop 2).map lowerChar) 0 hlh
  show String.mk ('0' :: 'x' ::
      applyMask nib (((to_checksum_address nib s).data.drop 2).map lowerChar) 0
        (((to_checksum_address nib s).data.drop 2).map lowerChar)) = _
  rw [hnorm2]
  exact rfl

lemma checksum_isHexAddress (nib : List Char → Nat → Nat) (s : String)
    (h : isHexAddress s = true) :
    isHexAddress (to_checksum_address nib s) = true := by
  obtain ⟨hlen, htake, hall⟩ := isHexAddress_elim s h
  have hlh := norm_lowHex _ hall
  have hmask_len :
      (applyMask nib ((s.data.drop 2).map lowerChar) 0
        ((s.data.drop 2).map lowerChar)).length = 40 := by
    rw [applyMask_length, List.length_map, List.length_drop, hlen]
  have hdata : (to_checksum_address nib s).data = '0' :: 'x' ::
      applyMask nib ((s.data.drop 2).map lowerChar) 0
        ((s.data.drop 2).map lowerChar) := rfl
  simp only [isHexAddress, hdata, Bool.and_eq_true, beq_iff_eq]
  refine ⟨⟨?_, rfl⟩, ?_⟩
  · simp only [List.length_cons, hmask_len]
  · simpa using applyMask_all_hex nib _ _ 0 hlh

lemma is_address_checksum (nib : List Char → Nat → Nat) (s : String)
    (h : isHexAddress s = true) :
    is_address nib (to_checksum_address nib s) = true := by
  have hhex := checksum_isHexAddress nib s h
  have hidem := checksum_idem nib s h
  simp only [is_address, hhex, Bool.not_true]
  simp only [Bool.false_eq_true, if_false]
  split
  · simp [is_checksum_address, hhex, hidem]
  · rfl

/-- C6: for every input already in valid account-identifier form,
resolve_address returns its checksummed form, without consulting the
name service (the result is the same for every name service), and
resolve_address is idempotent: applied to its own output it returns
the same canonical address. Universally quantified over the keccak
nibble function, so it holds for the real hash in particular. -/
theorem resolve_address_checksums_and_idempotent
    (nib : List Char → Nat → Nat) (ens ens2 : String → Option String)
    (s : String) (h : is_address nib s = true) :
    resolve_address nib ens s = Except.ok (to_checksum_address nib s) ∧
    resolve_address nib ens s = resolve_address nib ens2 s ∧
    resolve_address nib ens (to_checksum_address nib s) =
      Except.ok (to_checksum_address nib s) := by
  have hhexs : isHexAddress s = true := by
    cases h2 : isHexAddress s with
    | false => rw [is_address, h2] at h; simp at h
    | true => rfl
  refine ⟨?_, ?_, ?_⟩
  · simp [resolve_address, h]
  · simp [resolve_address, h]
  · simp [resolve_address, is_address_checksum nib s hhexs,
      checksum_idem nib s hhexs]

theorem transferLoop_direction {τ : Type} (fetch : Option String → TransfersResponse τ)
    (maxT : Nat) (ty lbl : String) :
    ∀ (fuel : Nat) (pk : Option String) (page total : Nat) (b : Batch τ),
      b ∈ (transferLoop fetch maxT ty lbl fuel pk page total).1 → b.direction = lbl := by
  intro fuel
  induction fuel with
  | zero => intro pk page total b hb; simp [transferLoop] at hb
  | succ n ih =>
    intro pk page total b hb
    simp only [transferLoop] at hb
    repeat' split at hb
    all_goals try simp at hb
    all_goals try rcases hb with hb | hb
    all_goals
      first
      | rfl
      | (subst hb; rfl)
      | (exact ih _ _ _ b hb)


lemma length_pos_of_not_isEmpty {α : Type} {l : List α}
    (h : ¬l.isEmpty = true) : 1 ≤ l.length := by
  cases l with
  | nil => simp [List.isEmpty] at h
  | cons a t => simp

theorem transferLoop_cap {τ : Type} (fetch : Option String → TransfersResponse τ)
    (maxT : Nat) (ty lbl : String) (hC : 0 < maxT) :
    ∀ (fuel : Nat) (pk : Option String) (page total : Nat),
      sumCounts (transferLoop fetch maxT ty lbl fuel pk page total).1 ≤ maxT - total := by
  intro fuel
  induction fuel with
  | zero => intro pk page total; simp [transferLoop, sumCounts]
  | succ n ih =>
    intro pk page total
    simp only [transferLoop]
    repeat' split
    all_goals try (simp [sumCounts]; done)
    all_goals
      (have h2 : ((fetch pk).transfers.take (maxT - total)).length ≤ maxT - total := by
        rw [List.length_take]; omega
       have h1 := ih (fetch pk).pageKey (page + 1)
         (total + ((fetch pk).transfers.take (maxT - total)).length)
       simp only [sumCounts, List.map_cons, List.sum_cons, List.map_nil,
         List.sum_nil] at h1 ⊢
       omega)

theorem transferLoop_chainInv {τ : Type} (fetch : Option String → TransfersResponse τ)
    (maxT : Nat) (ty lbl : String) :
    ∀ (fuel : Nat) (pk : Option String) (page total : Nat),
      chainInv page total (transferLoop fetch maxT ty lbl fuel pk page total).1 := by
  intro fuel
  induction fuel with
  | zero => intro pk page total; simp [transferLoop, chainInv]
  | succ n ih =>
    intro pk page total
    simp only [transferLoop]
    repeat' split
    all_goals try (simp [chainInv]; done)
    all_goals rename_i hne ht
    all_goals
      first
      | exact ⟨rfl, length_pos_of_not_isEmpty hne, rfl, rfl, ih _ _ _⟩
      | exact ⟨rfl, length_pos_of_not_isEmpty hne, rfl, rfl, trivial⟩



lemma stream_transfers_eq {τ : Type} (fetch : TransferQuery → TransfersResponse τ)
    (address from_block : String) (maxT : Nat) (nft : Bool)
    (direction : String) (fuel : Nat) :
    stream_transfers fetch address from_block maxT nft direction fuel =
      streamCombine
        (if direction = "from" ∨ direction = "both" then
          transferLoop
            (fun pk => fetch ⟨from_block, "latest", some address, none,
              transferCategories nft, true, pk, 1000⟩)
            maxT "from_transfers" "from" fuel none 0 0
        else ([], true))
        (if direction = "to" ∨ direction = "both" then
          transferLoop
            (fun pk => fetch ⟨from_block, "latest", none, some address,
              transferCategories nft, true, pk, 1000⟩)
            maxT "to_transfers" "to" fuel none 0 0
        else ([], true)) := rfl

lemma loopOrNil_direction {τ : Type} (c : Prop) [Decidable c]
    (fetch : Option String → TransfersResponse τ) (maxT : Nat)
    (ty lbl : String) (fuel : Nat) :
    ∀ b ∈ (if c then transferLoop fetch maxT ty lbl fuel none 0 0
        else ([], true)).1, b.direction = lbl := by
  split
  · exact fun b hb => transferLoop_direction _ _ _ _ _ _ _ _ b hb
  · intro b hb; simp at hb

lemma loopOrNil_chainInv {τ : Type} (c : Prop) [Decidable c]
    (fetch : Option String → TransfersResponse τ) (maxT : Nat)
    (ty lbl : String) (fuel : Nat) :
    chainInv 0 0 (if c then transferLoop fetch maxT ty lbl fuel none 0 0
        else ([], true)).1 := by
  split
  · exact transferLoop_chainInv _ _ _ _ _ _ _ _
  · trivial

lemma loopOrNil_cap {τ : Type} (c : Prop) [Decidable c]
    (fetch : Option String → TransfersResponse τ) (maxT : Nat)
    (ty lbl : String) (fuel : Nat) (hC : 0 < maxT) :
    sumCounts (if c then transferLoop fetch maxT ty lbl fuel none 0 0
        else ([], true)).1 ≤ maxT := by
  split
  · simpa using transferLoop_cap fetch maxT ty lbl hC fuel none 0 0
  · simp [sumCounts]

lemma streamCombine_split {τ : Type} (maxT : Nat) (F T : List (Batch τ) × Bool)
    (hFd : ∀ b ∈ F.1, b.direction = "from") (hTd : ∀ b ∈ T.1, b.direction = "to")
    (hFc : chainInv 0 0 F.1) (hTc : chainInv 0 0 T.1)
    (hFs : 0 < maxT → sumCounts F.1 ≤ maxT) (hTs : 0 < maxT → sumCounts T.1 ≤ maxT) :
    ∃ A B, (streamCombine F T).1 = A ++ B ∧
      (∀ b ∈ A, b.direction = "from") ∧ (∀ b ∈ B, b.direction = "to") ∧
      chainInv 0 0 A ∧ chainInv 0 0 B ∧
      (0 < maxT → sumCounts A ≤ maxT) ∧ (0 < maxT → sumCounts B ≤ maxT) := by
  unfold streamCombine
  split
  · exact ⟨F.1, T.1, rfl, hFd, hTd, hFc, hTc, hFs, hTs⟩
  · exact ⟨F.1, [], (List.append_nil _).symm, hFd, by intro b hb; simp at hb,
      hFc, trivial, hFs, by intro _; simp [sumCounts]⟩

lemma stream_transfers_split {τ : Type} (fetch : TransferQuery → TransfersResponse τ)
    (address from_block : String) (maxT : Nat) (nft : Bool)
    (direction : String) (fuel : Nat) :
    ∃ A B, (stream_transfers fetch address from_block maxT nft direction fuel).1 = A ++ B ∧
      (∀ b ∈ A, b.direction = "from") ∧ (∀ b ∈ B, b.direction = "to") ∧
      chainInv 0 0 A ∧ chainInv 0 0 B ∧
      (0 < maxT → sumCounts A ≤ maxT) ∧ (0 < maxT → sumCounts B ≤ maxT) := by
  rw [stream_transfers_eq]
  exact streamCombine_split maxT _ _
    (loopOrNil_direction _ _ _ _ _ _) (loopOrNil_direction _ _ _ _ _ _)
    (loopOrNil_chainInv _ _ _ _ _ _) (loopOrNil_chainInv _ _ _ _ _ _)
    (loopOrNil_cap _ _ _ _ _ _) (loopOrNil_cap _ _ _ _ _ _)

lemma filter_two_phase {τ : Type} (A B : List (Batch τ))
    (hA : ∀ b ∈ A, b.direction = "from") (hB : ∀ b ∈ B, b.direction = "to") :
    (A ++ B).filter (fun b => b.direction == "from") = A ∧
    (A ++ B).filter (fun b => b.direction == "to") = B := by
  have h1 : A.filter (fun b => b.direction == "from") = A :=
    List.filter_eq_self.mpr (by intro b hb; simp [hA b hb])
  have h2 : B.filter (fun b => b.direction == "from") = [] :=
    List.filter_eq_nil_iff.mpr (by intro b hb; simp [hB b hb])
  have h3 : A.filter (fun b => b.direction == "to") = [] :=
    List.filter_eq_nil_iff.mpr (by intro b hb; simp [hA b hb])
  have h4 : B.filter (fun b => b.direction == "to") = B :=
    List.filter_eq_self.mpr (by intro b hb; simp [hB b hb])
  constructor
  · rw [List.filter_append, h1, h2, List.append_nil]
  · rw [List.filter_append, h3, h4, List.nil_append]


/-- C10: every batch yielded by stream_transfers has a direction of
from or to (the two direction filters recompose the whole sequence),
and within each direction the batches satisfy the invariants: count
equals the length of the data list and is at least 1, page numbers
start at 1 and increase by exactly one per emitted batch, and each
total equals the sum of the counts of the batches of that direction
so far, itself included. -/
theorem stream_transfers_batch_invariants {τ : Type}
    (fetch : TransferQuery → TransfersResponse τ)
    (address from_block : String) (maxT : Nat) (nft : Bool)
    (direction : String) (fuel : Nat) :
    ((stream_transfers fetch address from_block maxT nft direction fuel).1.filter
        (fun b => b.direction == "from")) ++
      ((stream_transfers fetch address from_block maxT nft direction fuel).1.filter
        (fun b => b.direction == "to")) =
      (stream_transfers fetch address from_block maxT nft direction fuel).1 ∧
    chainInv 0 0 ((stream_transfers fetch address from_block maxT nft direction fuel).1.filter
        (fun b => b.direction == "from")) ∧
    chainInv 0 0 ((stream_transfers fetch address from_block maxT nft direction fuel).1.filter
        (fun b => b.direction == "to")) := by
  obtain ⟨A, B, hAB, hA, hB, hAc, hBc, -, -⟩ :=
    stream_transfers_split fetch address from_block maxT nft direction fuel
  obtain ⟨hfA, hfB⟩ := filter_two_phase A B hA hB
  rw [hAB, hfA, hfB]
  exact ⟨rfl, hAc, hBc⟩

/-- C2: for every cap C greater than zero and any call to
stream_transfers, over any upstream page sequence, the sum of the
count fields across all emitted from-direction batches is at most C,
and independently the sum across all to-direction batches is at most
C, each page being truncated to the remaining cap before emission. -/
theorem stream_transfers_cap_per_direction {τ : Type}
    (fetch : TransferQuery → TransfersResponse τ)
    (address from_block : String) (C : Nat) (nft : Bool)
    (direction : String) (fuel : Nat) (hC : 0 < C) :
    sumCounts ((stream_transfers fetch address from_block C nft direction fuel).1.filter
        (fun b => b.direction == "from")) ≤ C ∧
    sumCounts ((stream_transfers fetch address from_block C nft direction fuel).1.filter
        (fun b => b.direction == "to")) ≤ C := by
  obtain ⟨A, B, hAB, hA, hB, -, -, hAs, hBs⟩ :=
    stream_transfers_split fetch address from_block C nft direction fuel
  obtain ⟨hfA, hfB⟩ := filter_two_phase A B hA hB
  rw [hAB, hfA, hfB]
  exact ⟨hAs hC, hBs hC⟩

lemma two_phase_get {τ : Type} (A B : List (Batch τ))
    (hA : ∀ b ∈ A, b.direction = "from") (hB : ∀ b ∈ B, b.direction = "to")
    (i j : Nat) (hi : i < (A ++ B).length) (hj : j < (A ++ B).length)
    (hij : i < j) (hto : (A ++ B)[i].direction = "to") :
    (A ++ B)[j].direction ≠ "from" := by
  have hAi : A.length ≤ i := by
    by_contra hlt
    push_neg at hlt
    rw [List.getElem_append_left hlt] at hto
    have h2 := hA (A[i]) (List.getElem_mem hlt)
    rw [h2] at hto
    exact absurd hto (by decide)
  have hAj : A.length ≤ j := le_trans hAi (le_of_lt hij)
  rw [List.getElem_append_right hAj]
  have hBj : j - A.length < B.length := by
    rw [List.length_append] at hj; omega
  have h3 := hB (B[j - A.length]) (List.getElem_mem hBj)
  rw [h3]
  decide

/-- C1: for every address, starting block, cap and NFT flag, over any
deterministic upstream, a call to stream_transfers with direction both
never emits a to-direction batch before a from-direction batch: at any
two positions in the emitted sequence, once a to-direction batch has
appeared no later batch has direction from. -/
theorem stream_transfers_from_before_to {τ : Type}
    (fetch : TransferQuery → TransfersResponse τ)
    (address from_block : String) (maxT : Nat) (nft : Bool) (fuel i j : Nat)
    (hi : i < (stream_transfers fetch address from_block maxT nft "both" fuel).1.length)
    (hj : j < (stream_transfers fetch address from_block maxT nft "both" fuel).1.length)
    (hij : i < j)
    (hto : (stream_transfers fetch address from_block maxT nft "both" fuel).1[i].direction = "to") :
    (stream_transfers fetch address from_block maxT nft "both" fuel).1[j].direction ≠ "from" := by
  obtain ⟨A, B, hAB, hA, hB, -, -, -, -⟩ :=
    stream_transfers_split fetch address from_block maxT nft "both" fuel
  have hi2 : i < (A ++ B).length := by rw [← hAB]; exact hi
  have hj2 : j < (A ++ B).length := by rw [← hAB]; exact hj
  have e1 : (stream_transfers fetch address from_block maxT nft "both" fuel).1[i] =
      (A ++ B)[i] := by simp only [hAB]
  have e2 : (stream_transfers fetch address from_block maxT nft "both" fuel).1[j] =
      (A ++ B)[j] := by simp only [hAB]
  rw [e1] at hto
  rw [e2]
  exact two_phase_get A B hA hB i j hi2 hj2 hij hto

lemma streamCombine_from_only {τ : Type} (F : List (Batch τ) × Bool)
    (h : (streamCombine F ([], true)).2 = true) : F.2 = true := by
  unfold streamCombine at h
  split at h
  · assumption
  · exact absurd h (by simp)

lemma streamCombine_decompose {τ : Type} (F T : List (Batch τ) × Bool)
    (hF : F.2 = true) :
    (streamCombine F T).1 =
      (streamCombine F ([], true)).1 ++ (streamCombine ([], true) T).1 := by
  simp [streamCombine, hF]

/-- C3: over the same deterministic upstream, the batch sequence of
stream_transfers with direction both equals the sequence for direction
from concatenated with the sequence for direction to, whenever the
from loop terminates; in particular the to loop runs from a fresh
cursor, page counter and running total, sharing no pagination state
with the from loop. -/
theorem stream_transfers_both_decomposes {τ : Type}
    (fetch : TransferQuery → TransfersResponse τ)
    (address from_block : String) (maxT : Nat) (nft : Bool) (fuel : Nat)
    (h : (stream_transfers fetch address from_block maxT nft "from" fuel).2 = true) :
    (stream_transfers fetch address from_block maxT nft "both" fuel).1 =
      (stream_transfers fetch address from_block maxT nft "from" fuel).1 ++
      (stream_transfers fetch address from_block maxT nft "to" fuel).1 := by
  simp only [stream_transfers_eq] at h ⊢
  simp at h ⊢
  exact streamCombine_decompose _ _ (streamCombine_from_only _ h)


/-- C4: first part — if an upstream response has a non-empty page of
transfers but no truthy continuation cursor, the direction loop emits
the batch for that final page and then terminates normally; second
part — with cap 0 (unlimited), whenever the cursor chain eventually
reaches a response with an empty page or no cursor, the loop finishes
within that much fuel, so the generated batch sequence is finite. -/
theorem transferLoop_final_page :
    (∀ {τ : Type} (fetch : Option String → TransfersResponse τ) (maxT : Nat)
        (ty lbl : String) (fuel page total : Nat) (pk : Option String),
      (maxT > 0 → total < maxT) →
      (fetch pk).transfers ≠ [] →
      truthy (fetch pk).pageKey = false →
      transferLoop fetch maxT ty lbl (fuel + 1) pk page total =
        ([⟨ty, page + 1,
            (if maxT > 0 then (fetch pk).transfers.take (maxT - total)
             else (fetch pk).transfers).length,
            total + (if maxT > 0 then (fetch pk).transfers.take (maxT - total)
             else (fetch pk).transfers).length,
            lbl,
            (if maxT > 0 then (fetch pk).transfers.take (maxT - total)
             else (fetch pk).transfers)⟩], true)) ∧
    (∀ {τ : Type} (fetch : Option String → TransfersResponse τ)
        (ty lbl : String) (n : Nat) (pk : Option String) (fuel page total : Nat),
      terminalAt fetch pk n → n < fuel →
      (transferLoop fetch 0 ty lbl fuel pk page total).2 = true) := by
  constructor
  · intro τ fetch maxT ty lbl fuel page total pk h1 h2 h3
    have hg : ¬(maxT > 0 ∧ maxT ≤ total) := by
      intro hc
      have := h1 hc.1
      omega
    have hlen : 0 < (fetch pk).transfers.length := List.length_pos.mpr h2
    have hne : ¬((if maxT > 0 then (fetch pk).transfers.take (maxT - total)
        else (fetch pk).transfers).isEmpty = true) := by
      rw [List.isEmpty_iff_length_eq_zero]
      split
      · rw [List.length_take]
        rename_i hpos
        have := h1 hpos
        omega
      · omega
    simp only [transferLoop]
    rw [if_neg hg, if_neg hne, if_neg (by simp [h3])]
  · intro τ fetch ty lbl n
    induction n with
    | zero =>
      intro pk fuel page total hterm hfuel
      cases fuel with
      | zero => omega
      | succ f =>
        simp only [terminalAt, cursorChain] at hterm
        simp only [transferLoop]
        rcases hterm with he | ht
        · repeat' split
          all_goals simp_all [List.isEmpty_iff]
        · repeat' split
          all_goals simp_all
    | succ m ihm =>
      intro pk fuel page total hterm hfuel
      cases fuel with
      | zero => omega
      | succ f =>
        have hterm2 : terminalAt fetch ((fetch pk).pageKey) m := hterm
        simp only [transferLoop]
        repeat' split
        all_goals
          first
          | rfl
          | exact ihm _ _ _ _ hterm2 (by omega)


/-- C8: for stream_nfts with page size 100, if the upstream reports
totalCount 250 and returns three pages of 100, 100 and 50 items, the
last without a cursor, then exactly three batches are emitted with
page numbers 1, 2, 3, running totals 100, 200, 250, and each batch
carrying totalCount 250. -/
theorem stream_nfts_three_pages {ν : Type} (fetch : NftQuery → NftResponse ν)
    (address : String) (p1 p2 p3 : List ν) (k1 k2 : String) (n : Nat)
    (h1 : fetch ⟨address, 100, none⟩ = ⟨p1, 250, some k1⟩)
    (h2 : fetch ⟨address, 100, some k1⟩ = ⟨p2, 250, some k2⟩)
    (h3 : fetch ⟨address, 100, some k2⟩ = ⟨p3, 250, none⟩)
    (l1 : p1.length = 100) (l2 : p2.length = 100) (l3 : p3.length = 50)
    (hk1 : k1 ≠ "") (hk2 : k2 ≠ "") :
    stream_nfts fetch address 100 (n + 3) =
      ([⟨1, 100, 100, 250, p1⟩, ⟨2, 100, 200, 250, p2⟩,
        ⟨3, 50, 250, 250, p3⟩], true) := by
  have hp1 : ¬p1.isEmpty = true := by
    rw [List.isEmpty_iff_length_eq_zero]; omega
  have hp2 : ¬p2.isEmpty = true := by
    rw [List.isEmpty_iff_length_eq_zero]; omega
  simp only [stream_nfts]
  simp only [show n + 3 = n + 2 + 1 from rfl, show n + 2 = n + 1 + 1 from rfl]
  simp [nftLoop, h1, h2, h3, truthy, hk1, hk2, hp1, hp2, l1, l2, l3]

/-- C7: for the streaming transfer and NFT endpoints, the event
stream delivered to the consumer is exactly one data event per batch
successfully yielded by the underlying sequence, followed by exactly
one terminal event: a complete event when iteration finished
normally, an error event carrying the exception message when it
raised — already-delivered data events are never retracted and no
exception propagates. -/
theorem event_generator_delivers_then_terminal {β : Type}
    (completeMsg : String) (tr : GenTrace β) :
    event_generator completeMsg tr =
      (traceYields tr).map SseEvent.data ++
        [match traceError tr with
         | none => SseEvent.complete completeMsg
         | some m => SseEvent.error m] := by
  induction tr with
  | yield b rest ih => simp [event_generator, traceYields, traceError, ih]
  | stop => simp [event_generator, traceYields, traceError]
  | fail m => simp [event_generator, traceYields, traceError]

/-- C5: a native-currency transfer whose value field does not parse
as a decimal number changes neither total-in nor total-out, while the
reported total transfer count still counts it; the computation is
total, so it completes without raising. -/
theorem get_derived_stats_skips_unparseable (address : String)
    (pre post : List Transfer) (t : Transfer)
    (hnat : isNativeTransfer t = true) (hval : transferValue t = none) :
    (get_derived_stats address (pre ++ t :: post)).totalEthInWei =
        (get_derived_stats address (pre ++ post)).totalEthInWei ∧
    (get_derived_stats address (pre ++ t :: post)).totalEthOutWei =
        (get_derived_stats address (pre ++ post)).totalEthOutWei ∧
    (get_derived_stats address (pre ++ t :: post)).totalTransfers =
        (get_derived_stats address (pre ++ post)).totalTransfers + 1 := by
  have hin : contribIn address t = 0 := by simp [contribIn, hnat, hval]
  have hout : contribOut address t = 0 := by simp [contribOut, hnat, hval]
  refine ⟨?_, ?_, ?_⟩
  · simp [get_derived_stats, hin, hout]
  · simp [get_derived_stats, hin, hout]
  · simp [get_derived_stats]
    omega

/-- Witness for C5 at a concrete transfer list. -/
theorem get_derived_stats_skips_unparseable_witness :
    (get_derived_stats "0xA" ([] ++ unparseableTransfer :: [])).totalEthInWei =
        (get_derived_stats "0xA" ([] ++ [])).totalEthInWei ∧
    (get_derived_stats "0xA" ([] ++ unparseableTransfer :: [])).totalEthOutWei =
        (get_derived_stats "0xA" ([] ++ [])).totalEthOutWei ∧
    (get_derived_stats "0xA" ([] ++ unparseableTransfer :: [])).totalTransfers =
        (get_derived_stats "0xA" ([] ++ [])).totalTransfers + 1 :=
  get_derived_stats_skips_unparseable "0xA" [] [] unparseableTransfer
    (by decide) (by decide)

/-- C9: an empty first NFT page is still emitted — the stream yields
exactly one batch with page 1, count 0, running total 0, the
provider-reported totalCount and an empty data list, then terminates;
by contrast, the transfer-direction loop emits nothing when its first
page is empty. -/
theorem stream_nfts_empty_first_page :
    (∀ {ν : Type} (fetch : NftQuery → NftResponse ν) (address : String)
        (page_size fuel tc : Nat) (pk : Option String),
      fetch ⟨address, page_size, none⟩ = ⟨[], tc, pk⟩ →
      stream_nfts fetch address page_size (fuel + 1) =
        ([⟨1, 0, 0, tc, []⟩], true)) ∧
    (∀ {τ : Type} (tfetch : Option String → TransfersResponse τ)
        (maxT : Nat) (ty lbl : String) (fuel page total : Nat)
        (pk : Option String),
      (tfetch pk).transfers = [] →
      transferLoop tfetch maxT ty lbl (fuel + 1) pk page total = ([], true)) := by
  constructor
  · intro ν fetch address page_size fuel tc pk h
    simp [stream_nfts, nftLoop, h]
  · intro τ tfetch maxT ty lbl fuel page total pk h
    simp only [transferLoop]
    split
    · rfl
    · simp [h]

/-- Witness for C9 at concrete upstreams. -/
theorem stream_nfts_empty_first_page_witness :
    stream_nfts nftFetchEmpty "0xA" 100 1 = ([⟨1, 0, 0, 7, []⟩], true) ∧
    transferLoop transferFetchEmpty 0 "from_transfers" "from" 1 none 0 0 =
      ([], true) :=
  ⟨stream_nfts_empty_first_page.1 nftFetchEmpty "0xA" 100 0 7 none rfl,
   stream_nfts_empty_first_page.2 transferFetchEmpty 0 "from_transfers" "from"
     0 0 0 none rfl⟩


/-- Witness for C1 at a concrete upstream with two to-direction
batches. -/
theorem stream_transfers_from_before_to_witness :
    ((stream_transfers transferFetchToPages "0xA" "0x0" 0 true "both" 2).1.get
      ⟨1, by decide⟩).direction ≠ "from" :=
  stream_transfers_from_before_to transferFetchToPages "0xA" "0x0" 0 true 2 0 1
    (by decide) (by decide) (by decide) (by decide)

/-- Witness for C2 at cap 2 over an upstream of endless three-item
pages. -/
theorem stream_transfers_cap_per_direction_witness :
    sumCounts ((stream_transfers transferFetchBig "0xA" "0x0" 2 true "both" 5).1.filter
        (fun b => b.direction == "from")) ≤ 2 ∧
    sumCounts ((stream_transfers transferFetchBig "0xA" "0x0" 2 true "both" 5).1.filter
        (fun b => b.direction == "to")) ≤ 2 :=
  stream_transfers_cap_per_direction transferFetchBig "0xA" "0x0" 2 true "both" 5
    (by decide)

/-- Witness for C3 at a concrete upstream with one page per
direction. -/
theorem stream_transfers_both_decomposes_witness :
    (stream_transfers transferFetchOnePage "0xA" "0x0" 0 true "both" 2).1 =
      (stream_transfers transferFetchOnePage "0xA" "0x0" 0 true "from" 2).1 ++
      (stream_transfers transferFetchOnePage "0xA" "0x0" 0 true "to" 2).1 :=
  stream_transfers_both_decomposes transferFetchOnePage "0xA" "0x0" 0 true 2
    (by decide)

/-- Witness for C4 at an upstream whose first page is non-empty and
carries no cursor. -/
theorem transferLoop_final_page_witness :
    transferLoop transferFetchFinal 0 "from_transfers" "from" 1 none 0 0 =
      ([⟨"from_transfers", 1, 2, 2, "from", [1, 2]⟩], true) ∧
    (transferLoop transferFetchFinal 0 "from_transfers" "from" 1 none 0 0).2 = true :=
  ⟨transferLoop_final_page.1 transferFetchFinal 0 "from_transfers" "from" 0 0 0 none
      (by decide) (by decide) (by decide),
   transferLoop_final_page.2 transferFetchFinal "from_transfers" "from" 0 none 1 0 0
      (Or.inr (by decide)) (by decide)⟩

/-- Witness for C6 at the zero address with a constant nibble
function. -/
theorem resolve_address_checksums_and_idempotent_witness :
    resolve_address nibZero ensNone canonicalAddr =
      Except.ok (to_checksum_address nibZero canonicalAddr) ∧
    resolve_address nibZero ensNone canonicalAddr =
      resolve_address nibZero (fun _ => some "0xdeadbeef") canonicalAddr ∧
    resolve_address nibZero ensNone (to_checksum_address nibZero canonicalAddr) =
      Except.ok (to_checksum_address nibZero canonicalAddr) :=
  resolve_address_checksums_and_idempotent nibZero ensNone
    (fun _ => some "0xdeadbeef") canonicalAddr (by decide)

/-- Witness for C8 at a concrete three-page NFT upstream. -/
theorem stream_nfts_three_pages_witness :
    stream_nfts nftFetch3 "0xA" 100 3 =
      ([⟨1, 100, 100, 250, List.replicate 100 ()⟩,
        ⟨2, 100, 200, 250, List.replicate 100 ()⟩,
        ⟨3, 50, 250, 250, List.replicate 50 ()⟩], true) :=
  stream_nfts_three_pages nftFetch3 "0xA" (List.replicate 100 ())
    (List.replicate 100 ()) (List.replicate 50 ()) "k1" "k2" 0 rfl rfl rfl
    (by simp) (by simp) (by simp) (by decide) (by decide)

end Blocksight
